import Mathlib

/-
Verification of the polar-rcx5-datalink core against its specification.

The development shallowly embeds the two subsystems the spec covers:
the bit utilities and session bitstream decoder of
`polar_rcx5_datalink/parser.py` and `polar_rcx5_datalink/utils.py`, and the
session-enumeration logic of `polar_rcx5_datalink/datalink.py`.

Python binary strings are embedded as `List Bool` (MSB first, `'0' = false`,
`'1' = true`), Python floats as `ℚ` with Python `round`'s half-to-even tie
break made explicit, and Python exceptions as `Option`/`Except` results.
-/

set_option allowUnsafeReducibility true
attribute [semireducible] Rat.add Rat.sub Rat.neg Rat.mul Rat.div Rat.inv

namespace Polar

/-- MSB-first bit strings stand in for the Python binary strings used all
over `parser.py` and `utils.py`: `false` is the character `0`, `true` is
`1`. -/
abbrev Bits := List Bool

/-- Python `int(s, 2)` on a binary string.  Python raises `ValueError` on an
empty string; every caller below models that failure case explicitly, so
this function itself is total. -/
def bitsToNat (s : Bits) : Nat :=
  s.foldl (fun a b => 2 * a + (if b then 1 else 0)) 0

/-- Minimal binary representation of `n` (empty for `n = 0`), written with
explicit fuel so that the recursion on `n / 2` stays structural and the
function evaluates inside the kernel.  `natToBitsGo n n` agrees with Python
`format(n, 'b')` for positive `n`. -/
def natToBitsGo : Nat → Nat → Bits
  | 0, _ => []
  | fuel + 1, n => if n = 0 then [] else natToBitsGo fuel (n / 2) ++ [decide (n % 2 = 1)]

/-- Python `format(n, 'b')`: minimal binary representation, `"0"` for 0. -/
def natToBits (n : Nat) : Bits :=
  if n = 0 then [false] else natToBitsGo n n

/-- `utils.get_bin(val, length)`: binary representation of `val` left-padded
with zeros to `length` characters (`format(val, 'b').zfill(length)`). -/
def get_bin (val length : Nat) : Bits :=
  List.replicate (length - (natToBits val).length) false ++ natToBits val

/-- `utils.int_to_twos_complement(val, length)`.  A nonnegative `val` is
rendered as `get_bin(val, length)`; a negative one has the bits of `|val|`
flipped against the all-ones mask `int('1' * length, 2) = 2 ^ length - 1`,
is incremented, and is rendered without padding (`format(..., 'b')`). -/
def int_to_twos_complement (val : Int) (length : Nat) : Bits :=
  if 0 ≤ val then get_bin val.toNat length
  else natToBits ((val.natAbs ^^^ (2 ^ length - 1)) + 1)

/-- `utils.twos_complement_to_int(val, length)`: flip against the all-ones
mask, add one, and negate.  The docstring says "We assume that the number is
always negative", and the code indeed negates unconditionally. -/
def twos_complement_to_int (val : Bits) (length : Nat) : Int :=
  -(((bitsToNat val ^^^ (2 ^ length - 1)) + 1 : Nat) : Int)

theorem bitsToNat_append_singleton (l : Bits) (b : Bool) :
    bitsToNat (l ++ [b]) = 2 * bitsToNat l + (if b then 1 else 0) := by
  simp [bitsToNat]

theorem bitsToNat_natToBitsGo : ∀ fuel n, n ≤ fuel → bitsToNat (natToBitsGo fuel n) = n := by
  intro fuel
  induction fuel with
  | zero =>
    intro n h
    interval_cases n
    simp [natToBitsGo, bitsToNat]
  | succ f ih =>
    intro n h
    by_cases h0 : n = 0
    · simp [natToBitsGo, h0, bitsToNat]
    · rw [natToBitsGo, if_neg h0, bitsToNat_append_singleton, ih (n / 2) (by omega)]
      rcases Nat.mod_two_eq_zero_or_one n with h2 | h2 <;> simp [h2] <;> omega

theorem bitsToNat_natToBits (n : Nat) : bitsToNat (natToBits n) = n := by
  by_cases h : n = 0
  · simp [natToBits, h, bitsToNat]
  · simp [natToBits, h, bitsToNat_natToBitsGo n n le_rfl]

theorem xor_step (a b r s : Nat) (hr : r < 2) (hs : s < 2) :
    (2 * a + r) ^^^ (2 * b + s) = 2 * (a ^^^ b) + (r ^^^ s) := by
  have hrs : r ^^^ s < 2 := by interval_cases r <;> interval_cases s <;> decide
  apply Nat.eq_of_testBit_eq
  intro i
  cases i with
  | zero =>
    rw [Nat.testBit_xor, Nat.testBit_zero, Nat.testBit_zero, Nat.testBit_zero]
    have e1 : (2 * a + r) % 2 = r := by omega
    have e2 : (2 * b + s) % 2 = s := by omega
    have e3 : (2 * (a ^^^ b) + (r ^^^ s)) % 2 = r ^^^ s := by omega
    rw [e1, e2, e3]
    interval_cases r <;> interval_cases s <;> decide
  | succ i =>
    rw [Nat.testBit_xor, Nat.testBit_add_one, Nat.testBit_add_one, Nat.testBit_add_one]
    have e1 : (2 * a + r) / 2 = a := by omega
    have e2 : (2 * b + s) / 2 = b := by omega
    have e3 : (2 * (a ^^^ b) + (r ^^^ s)) / 2 = a ^^^ b := by omega
    rw [e1, e2, e3, Nat.testBit_xor]

theorem xor_mask : ∀ n x : Nat, x < 2 ^ n → x ^^^ (2 ^ n - 1) = 2 ^ n - 1 - x := by
  intro n
  induction n with
  | zero =>
    intro x hx
    interval_cases x
    decide
  | succ n ih =>
    intro x hx
    have hp : 2 ^ (n + 1) = 2 * 2 ^ n := by ring
    obtain ⟨q, r, hrlt, rfl⟩ : ∃ q r, r < 2 ∧ x = 2 * q + r :=
      ⟨x / 2, x % 2, by omega, by omega⟩
    have hq : q < 2 ^ n := by omega
    have h1 : 1 ≤ 2 ^ n := Nat.one_le_two_pow
    have e2 : 2 ^ (n + 1) - 1 = 2 * (2 ^ n - 1) + 1 := by omega
    rw [e2, xor_step q (2 ^ n - 1) r 1 hrlt (by decide), ih q hq]
    have hr1 : r ^^^ 1 = 1 - r := by interval_cases r <;> decide
    rw [hr1]
    omega

/-- Claim C1, counterexample: `v = 0`, `n = 8` lies in the claimed interval
`[-2^(n-1), 2^(n-1))`, yet the round trip through
`int_to_twos_complement` and `twos_complement_to_int` does not return `v`
(it returns `-256`), because `twos_complement_to_int` negates
unconditionally. -/
theorem c1_counterexample :
    (-((2 ^ (8 - 1) : Nat) : Int) ≤ 0 ∧ (0 : Int) < ((2 ^ (8 - 1) : Nat) : Int))
      ∧ twos_complement_to_int (int_to_twos_complement 0 8) 8 ≠ 0 := by
  decide

/-- Claim C1 (amended): for every bit-width `n ≥ 1` and every negative `v`
in `[-2^(n-1), 0)`, converting `v` to two's complement with
`int_to_twos_complement(v, n)` and back with `twos_complement_to_int`
yields `v`.  (For nonnegative `v` the round trip fails, since
`twos_complement_to_int` assumes its argument encodes a negative number.) -/
theorem c1_twos_complement_roundtrip (n : Nat) (v : Int)
    (hn : 1 ≤ n) (hlo : -((2 ^ (n - 1) : Nat) : Int) ≤ v) (hhi : v < 0) :
    twos_complement_to_int (int_to_twos_complement v n) n = v := by
  have hneg : ¬0 ≤ v := by omega
  have hva : (v.natAbs : Int) = -v := Int.ofNat_natAbs_of_nonpos (le_of_lt hhi)
  set a := v.natAbs with ha
  have ha1 : 1 ≤ a := by omega
  have haub : a ≤ 2 ^ (n - 1) := by omega
  have hpow : 2 ^ n = 2 * 2 ^ (n - 1) := by
    have hn' : n - 1 + 1 = n := by omega
    calc 2 ^ n = 2 ^ (n - 1 + 1) := by rw [hn']
      _ = 2 * 2 ^ (n - 1) := by ring
  have h1 : 1 ≤ 2 ^ (n - 1) := Nat.one_le_two_pow
  have hlt : a < 2 ^ n := by omega
  unfold int_to_twos_complement
  rw [if_neg hneg]
  have hm : (a ^^^ (2 ^ n - 1)) + 1 = 2 ^ n - a := by rw [xor_mask n a hlt]; omega
  rw [hm]
  unfold twos_complement_to_int
  rw [bitsToNat_natToBits]
  have hxor2 : (2 ^ n - a) ^^^ (2 ^ n - 1) = a - 1 := by
    have hlt2 : 2 ^ n - a < 2 ^ n := by omega
    rw [xor_mask n _ hlt2]
    omega
  rw [hxor2]
  have he : a - 1 + 1 = a := by omega
  rw [he]
  omega

/-- Claim C1, witness: the amended round trip at `n = 8`, `v = -5`. -/
theorem c1_witness :
    1 ≤ 8 ∧ -((2 ^ (8 - 1) : Nat) : Int) ≤ -5 ∧ (-5 : Int) < 0 ∧
      twos_complement_to_int (int_to_twos_complement (-5) 8) 8 = -5 :=
  ⟨by decide, by decide, by decide,
    c1_twos_complement_roundtrip 8 (-5) (by decide) (by decide) (by decide)⟩

/-- `utils.pop_zeroes(items)`: Python computes
`index = next(i for i, v in enumerate(reversed(items)) if v != 0)` and
returns `items[:-index]`.  `none` models the `StopIteration` raised when
every element is zero.  Note that for `index = 0` (last element nonzero)
the Python slice `items[:-0]` is `items[:0] = []`. -/
def pop_zeroes (items : List Nat) : Option (List Nat) :=
  match items.reverse.findIdx? (fun v => decide (v ≠ 0)) with
  | none => none
  | some index => some (if index = 0 then [] else items.take (items.length - index))

/-- One packet's contribution to `TrainingSession.tobin`: the first packet
keeps its 7-byte header, later packets drop it; the last packet is passed
through `pop_zeroes`, all others drop their trailing 59 bytes
(`packet[start:-59]`). -/
def packet_payload (isFirst isLast : Bool) (packet : List Nat) : Option (List Nat) :=
  let start := if isFirst then 0 else 7
  if isLast then pop_zeroes (packet.drop start)
  else some ((packet.drop start).take (packet.length - 59 - start))

/-- Byte payloads of all packets of a raw session, in order, with
first/last bookkeeping as in `TrainingSession.tobin`. -/
def tobin_packets : Bool → List (List Nat) → Option (List Nat)
  | _, [] => some []
  | isFirst, [p] => packet_payload isFirst true p
  | isFirst, p :: q :: rest =>
    match packet_payload isFirst false p, tobin_packets false (q :: rest) with
    | some a, some b => some (a ++ b)
    | _, _ => none

/-- `TrainingSession.tobin`: concatenate the per-packet payload bytes and
render each byte as 8 bits. -/
def tobin (raw : List (List Nat)) : Option Bits :=
  (tobin_packets true raw).map (fun bytes => bytes.flatMap (fun b => get_bin b 8))

/-- `TrainingSession._get_samples_bits`: samples start at byte 349 (GPS) or
byte 351 (no GPS) of the reconstructed bitstream. -/
def get_samples_bits (raw : List (List Nat)) (hasGps : Bool) : Option Bits :=
  (tobin raw).map (fun bits => bits.drop ((if hasGps then 349 else 351) * 8))

/-- Claim C6: evaluation of the final-packet handling at a payload whose
last byte is nonzero.  After dropping the 7 header bytes the payload is
`[0, 0, 5]`; the claim (and the docstring of `pop_zeroes`) requires all
three bytes to be kept, but `pop_zeroes` finds the trailing-zero run empty
(`index = 0`) and `items[:-0]` silently drops the whole buffer. -/
theorem c6_final_packet_bug :
    packet_payload false true [9, 9, 9, 9, 9, 9, 9, 0, 0, 5] = some []
      ∧ pop_zeroes [0, 0, 5] = some []
      ∧ pop_zeroes [5, 0, 3, 0, 0] = some [5, 0, 3] := by
  decide

/-- The error raised by `DataLink.sessions` (`exceptions.SyncError`), one
constructor per distinct message: "Failed to load training sessions",
"No training sessions found", and "Can't get a size of session #n". -/
inductive SyncErr where
  | loadFailed : SyncErr
  | noSessions : SyncErr
  | sizeFailed (num : Nat) : SyncErr
deriving DecidableEq

/-- First loop of `DataLink.sessions`: fetch every session size in order
and abort with `SyncError` on the first failure (Python raises
`SyncError(f"Can't get a size of session #{num + 1}")`). -/
def getSizes (readSize : Nat → Option Nat) : List Nat → Except SyncErr (List Nat)
  | [] => Except.ok []
  | num :: rest =>
    match readSize num with
    | none => Except.error (SyncErr.sizeFailed (num + 1))
    | some sz =>
      match getSizes readSize rest with
      | Except.error e => Except.error e
      | Except.ok tail => Except.ok (sz :: tail)

/-- Python `enumerate`, used by the second loop of `DataLink.sessions`. -/
def pyEnumerate : Nat → List α → List (Nat × α)
  | _, [] => []
  | k, x :: xs => (k, x) :: pyEnumerate (k + 1) xs

/-- Second loop of `DataLink.sessions`: read each session body; a failed
read is reported as a warning (`report_warning(f"Can't read session ...")`,
modelled by collecting the warned session numbers in the first component)
and the session is skipped; successful reads are collected in order. -/
def getBodies (readBody : Nat → Nat → Option σ) : List (Nat × Nat) → List Nat × List σ
  | [] => ([], [])
  | (num, sz) :: rest =>
    let tail := getBodies readBody rest
    match readBody num sz with
    | none => ((num + 1) :: tail.1, tail.2)
    | some s => (tail.1, s :: tail.2)

/-- `DataLink.sessions`, abstracted over the device oracles: `count` is the
result of `_count_sessions`, `readSize n` of `_read_session_size(n)`, and
`readBody n size` of `_read_session(n, size)`.  The result pairs the warned
session numbers with the sessions that were read. -/
def sessions (count : Option Nat) (readSize : Nat → Option Nat)
    (readBody : Nat → Nat → Option σ) : Except SyncErr (List Nat × List σ) :=
  match count with
  | none => Except.error SyncErr.loadFailed
  | some n =>
    if n = 0 then Except.error SyncErr.noSessions
    else
      match getSizes readSize (List.range n) with
      | Except.error e => Except.error e
      | Except.ok sizes => Except.ok (getBodies readBody (pyEnumerate 0 sizes))

theorem getSizes_all_some (sz : Nat → Nat) :
    ∀ l : List Nat, getSizes (fun i => some (sz i)) l = Except.ok (l.map sz) := by
  intro l
  induction l with
  | nil => rfl
  | cons x xs ih => simp [getSizes, ih]

theorem pyEnumerate_map (sz : Nat → Nat) :
    ∀ n k, pyEnumerate k ((List.range' k n).map sz)
      = (List.range' k n).map (fun i => (i, sz i)) := by
  intro n
  induction n with
  | zero => intro k; rfl
  | succ m ih => intro k; simp [List.range'_succ, pyEnumerate, ih (k + 1)]

theorem getBodies_map (readBody : Nat → Nat → Option σ) (sz : Nat → Nat) :
    ∀ ns : List Nat,
      getBodies readBody (ns.map (fun i => (i, sz i)))
        = ((ns.filter (fun num => (readBody num (sz num)).isNone)).map (· + 1),
            ns.filterMap (fun num => readBody num (sz num))) := by
  intro ns
  induction ns with
  | nil => rfl
  | cons i rest ih =>
    cases h : readBody i (sz i) <;>
      simp [getBodies, ih, List.filter_cons, List.filterMap_cons, h]

/-- Claim C2, counterexample: with one reported session whose size read
fails, `DataLink.sessions` raises `SyncError("Can't get a size of session
#1")` and aborts, instead of warning and returning an empty result as the
claim predicts. -/
theorem c2_counterexample :
    sessions (some 1) (fun _ => none) (fun _ _ => (some 0 : Option Nat))
      = Except.error (SyncErr.sizeFailed 1) := rfl

/-- Claim C2 (amended): a failed session *size* read aborts the whole
enumeration with a `SyncError`; only a failed session *body* read is
downgraded to a warning, with that session omitted and enumeration of the
remaining sessions continuing.  Whenever every size read succeeds, the
result is the in-order list of the sessions whose body read succeeded,
alongside warnings for exactly the sessions whose body read failed. -/
theorem c2_body_failures_skip (n : Nat) (sz : Nat → Nat)
    (readBody : Nat → Nat → Option σ) (hn : 0 < n) :
    sessions (some n) (fun i => some (sz i)) readBody
      = Except.ok
          (((List.range n).filter (fun num => (readBody num (sz num)).isNone)).map (· + 1),
            (List.range n).filterMap (fun num => readBody num (sz num))) := by
  have h0 : ¬n = 0 := by omega
  simp only [sessions, getSizes_all_some sz (List.range n), if_neg h0]
  rw [List.range_eq_range', pyEnumerate_map sz n 0, getBodies_map, ← List.range_eq_range']

/-- Claim C2, witness: one session whose body read fails yields a warning
for session 1 and no sessions, with no error. -/
theorem c2_witness :
    0 < 1 ∧
      sessions (some 1) (fun i => some ((fun _ => 0) i)) (fun _ _ => (none : Option Nat))
        = Except.ok ([1], []) :=
  ⟨by decide, (c2_body_failures_skip 1 (fun _ => 0) (fun _ _ => none) (by decide)).trans rfl⟩

/-- Claim C10: a reported session count of zero makes `DataLink.sessions`
fail with `SyncError("No training sessions found")`, not return an empty
sequence -- just as a failed count request fails with
`SyncError("Failed to load training sessions")`. -/
theorem c10_zero_count_errors (readSize : Nat → Option Nat)
    (readBody : Nat → Nat → Option Nat) :
    sessions (some 0) readSize readBody = Except.error SyncErr.noSessions
      ∧ sessions none readSize readBody = Except.error SyncErr.loadFailed :=
  ⟨rfl, rfl⟩

/-- Python `round(x)` on our rational embedding of floats: round half to
even (banker's rounding). -/
def pyRound (q : ℚ) : ℤ :=
  let f := ⌊q⌋
  let r := q - (f : ℚ)
  if r < 1 / 2 then f
  else if 1 / 2 < r then f + 1
  else if f % 2 = 0 then f else f + 1

/-- Python `round(x, 9)`, the rounding used by
`TrainingSession._format_coord_frac` and `_parse_coord`. -/
def round9 (q : ℚ) : ℚ := (pyRound (q * 10 ^ 9) : ℚ) / 10 ^ 9

/-- Python `int(x)` on a float: truncation toward zero. -/
def pyInt (q : ℚ) : ℤ := if q < 0 then ⌈q⌉ else ⌊q⌋

/-- `TrainingSession.COORD_COEFF = 10 ** 4 / 6`. -/
def COORD_COEFF : ℚ := 10 ^ 4 / 6

theorem pyRound_intCast (k : ℤ) : pyRound (k : ℚ) = k := by
  simp only [pyRound, Int.floor_intCast, sub_self]
  norm_num

theorem round9_int_div (k : ℤ) : round9 ((k : ℚ) / 10 ^ 9) = (k : ℚ) / 10 ^ 9 := by
  unfold round9
  rw [div_mul_cancel₀ (k : ℚ) (by norm_num : ((10 : ℚ) ^ 9) ≠ 0), pyRound_intCast]

/-- `TrainingSession._is_frozen`: a channel is frozen when its zero-delta
counter has reached 2. -/
def is_frozen (counter : Nat) : Bool := decide (2 ≤ counter)

/-- `TrainingSession._handle_delta` on a single channel's counter: a zero
delta increments it, any other delta resets it to 0
(`_reset_zero_delta_counter` is the constant 0 below). -/
def handle_delta (counter : Nat) (delta : Int) : Nat :=
  if delta = 0 then counter + 1 else 0

/-- The two operations the decoder ever performs on a channel's zero-delta
counter: observing a delta (`_handle_delta`) and accepting a full value
(`_reset_zero_delta_counter`). -/
inductive CounterEvent where
  | delta (d : Int) : CounterEvent
  | full : CounterEvent
deriving DecidableEq

/-- One counter update. -/
def counterStep (counter : Nat) : CounterEvent → Nat
  | CounterEvent.delta d => handle_delta counter d
  | CounterEvent.full => 0

/-- The zero-delta counter after a history of observed events, starting
from the 0 of `TrainingSession.__init__`. -/
def counterRun (es : List CounterEvent) : Nat := es.foldl counterStep 0

theorem counterRun_append_singleton (es : List CounterEvent) (e : CounterEvent) :
    counterRun (es ++ [e]) = counterStep (counterRun es) e := by
  simp [counterRun]

theorem concat_inj {α} {l l' : List α} {a b : α} (h : l ++ [a] = l' ++ [b]) :
    l = l' ∧ a = b := by
  obtain ⟨h1, h2⟩ := List.append_inj' h (by simp)
  exact ⟨h1, by simpa using h2⟩

theorem counterRun_ge_one_iff (es : List CounterEvent) :
    1 ≤ counterRun es ↔ ∃ es', es = es' ++ [CounterEvent.delta 0] := by
  rcases es.eq_nil_or_concat with rfl | ⟨l, e, rfl⟩
  · constructor
    · intro h
      simp [counterRun] at h
    · rintro ⟨es', h⟩
      exact absurd h (by simp)
  · rw [List.concat_eq_append]
    constructor
    · intro h
      rw [counterRun_append_singleton] at h
      cases e with
      | full => simp [counterStep] at h
      | delta d =>
        by_cases hd : d = 0
        · exact ⟨l, by rw [hd]⟩
        · simp [counterStep, handle_delta, hd] at h
    · rintro ⟨es', heq⟩
      obtain ⟨rfl, he⟩ := concat_inj heq
      rw [he, counterRun_append_singleton]
      simp [counterStep, handle_delta]

theorem counterRun_ge_two_iff (es : List CounterEvent) :
    2 ≤ counterRun es ↔ ∃ es', es = es' ++ [CounterEvent.delta 0, CounterEvent.delta 0] := by
  rcases es.eq_nil_or_concat with rfl | ⟨l, e, rfl⟩
  · constructor
    · intro h
      simp [counterRun] at h
    · rintro ⟨es', h⟩
      exact absurd h (by simp)
  · rw [List.concat_eq_append]
    constructor
    · intro h
      rw [counterRun_append_singleton] at h
      cases e with
      | full => simp [counterStep] at h
      | delta d =>
        by_cases hd : d = 0
        · subst hd
          simp [counterStep, handle_delta] at h
          obtain ⟨es', rfl⟩ := (counterRun_ge_one_iff l).mp (by omega)
          exact ⟨es', by simp⟩
        · simp [counterStep, handle_delta, hd] at h
    · rintro ⟨es', heq⟩
      have heq' : l ++ [e] = (es' ++ [CounterEvent.delta 0]) ++ [CounterEvent.delta 0] := by
        simpa using heq
      obtain ⟨rfl, he⟩ := concat_inj heq'
      rw [he, counterRun_append_singleton, counterRun_append_singleton]
      simp [counterStep, handle_delta]

/-- Claim C3: a channel reports frozen (counter at least 2) exactly when
the two most recent observed events were both zero deltas; a full-value
acceptance resets the counter to 0 (unfreezing), a nonzero delta resets it
to 0, and a zero delta increments it (so the counter first reaches 2 on
the second consecutive zero delta). -/
theorem c3_freeze_semantics (es : List CounterEvent) :
    (is_frozen (counterRun es) = true
        ↔ ∃ es', es = es' ++ [CounterEvent.delta 0, CounterEvent.delta 0])
      ∧ counterRun (es ++ [CounterEvent.full]) = 0
      ∧ (∀ d : Int, d ≠ 0 → counterRun (es ++ [CounterEvent.delta d]) = 0)
      ∧ counterRun (es ++ [CounterEvent.delta 0]) = counterRun es + 1 := by
  refine ⟨?_, ?_, ?_, ?_⟩
  · rw [show (is_frozen (counterRun es) = true) ↔ 2 ≤ counterRun es by simp [is_frozen]]
    exact counterRun_ge_two_iff es
  · rw [counterRun_append_singleton]
    rfl
  · intro d hd
    rw [counterRun_append_singleton]
    simp [counterStep, handle_delta, hd]
  · rw [counterRun_append_singleton]
    simp [counterStep, handle_delta]

/-- Claim C3, witness: after `+2, +0, +0` the channel is frozen, and an
accepted full value resets the counter. -/
theorem c3_witness :
    is_frozen (counterRun [CounterEvent.delta 2, CounterEvent.delta 0, CounterEvent.delta 0]) = true
      ∧ counterRun ([CounterEvent.delta 2, CounterEvent.delta 0, CounterEvent.delta 0]
          ++ [CounterEvent.full]) = 0 :=
  ⟨(c3_freeze_semantics _).1.mpr ⟨[CounterEvent.delta 2], rfl⟩, (c3_freeze_semantics _).2.1⟩

/-- The four HR encodings of `parser.HRType`, discriminated (as in the
code) by the FIRST TWO bits only: `fullTagged` is `FULL_WITH_PREFIX`
(`'01'`, documented as the 3-bit marker `011` over an 8-bit value),
`fullPlain` is `FULL_PREFIXLESS` (`'00'`, 11-bit value), `posDelta` is
`'10'` and `negDelta` is `'11'` (4-bit deltas). -/
inductive HRType where
  | fullTagged : HRType
  | fullPlain : HRType
  | posDelta : HRType
  | negDelta : HRType
deriving DecidableEq

/-- `HRType(input_val[0:2])`: Python raises `ValueError` when fewer than
two bits are available (no enum member matches). -/
def classify_hr : Bits → Option HRType
  | false :: true :: _ => some HRType.fullTagged
  | false :: false :: _ => some HRType.fullPlain
  | true :: false :: _ => some HRType.posDelta
  | true :: true :: _ => some HRType.negDelta
  | _ => none

/-- `TrainingSession._process_hr_bits`: classify on the first two bits; in
frozen state anything but `FULL_WITH_PREFIX` is a 1-bit `+0` delta;
otherwise slice the value bits `input[type_offset:end]`, right-pad with
zeros to 4 bits (`'{:<04s}'.format`), and decode (two's complement for a
negative delta).  Returns `(value, value type, consumed bit count)`. -/
def process_hr_bits (frozen : Bool) (input : Bits) : Option (Int × Option HRType × Nat) :=
  match classify_hr input with
  | none => none
  | some t =>
    if frozen ∧ t ≠ HRType.fullTagged then some (0, none, 1)
    else
      let typeOffset : Nat :=
        match t with
        | HRType.fullTagged => 3
        | HRType.fullPlain => 0
        | HRType.posDelta => 2
        | HRType.negDelta => 2
      let stop : Nat :=
        match t with
        | HRType.fullTagged => 11
        | HRType.fullPlain => 11
        | HRType.posDelta => 6
        | HRType.negDelta => 6
      let val := (input.drop typeOffset).take (stop - typeOffset)
      let padded := if val.length < 4 then val ++ List.replicate (4 - val.length) false else val
      let v : Int :=
        if t = HRType.negDelta then twos_complement_to_int padded 4
        else (bitsToNat padded : Int)
      some (v, some t, stop)

/-- `parser.Sample`: one periodic telemetry tick (the `sat` field of
`SampleFields` is not part of the namedtuple). -/
structure Sample where
  hr : Option Int
  lon : Option ℚ
  lat : Option ℚ
  distance : Option ℚ
  speed : Option ℚ
deriving DecidableEq

/-- `TrainingSession._parse_hr`: read up to 11 bits at the cursor, process
them, update the HR zero-delta counter (reset on a full value, otherwise
`_handle_delta`), advance the cursor, and return the full value or
`previous sample's hr + delta`.  Returns `(hr, cursor', hr counter')`;
`none` models the exceptions (too few bits, missing previous HR). -/
def parse_hr (bits : Bits) (cursor hrC : Nat) (samples : List Sample) :
    Option (Int × Nat × Nat) :=
  match process_hr_bits (is_frozen hrC) ((bits.drop cursor).take 11) with
  | none => none
  | some (hr, valType, offset) =>
    let isFull := valType = some HRType.fullTagged ∨ valType = some HRType.fullPlain
    let hrC' := if isFull then 0 else handle_delta hrC hr
    if isFull then some (hr, cursor + offset, hrC')
    else
      match samples.getLast? with
      | none => none
      | some smp =>
        match smp.hr with
        | none => none
        | some p => some (p + hr, cursor + offset, hrC')

/-- Claim C5, counterexample: in frozen state the bit pattern
`010 00000000` is NOT `011`-prefixed, yet `_process_hr_bits` classifies it
by its first two bits alone and decodes it as an 11-bit full value
(consuming 11 bits, value 0) instead of the claimed 1-bit `+0` delta. -/
theorem c5_counterexample :
    process_hr_bits true ([false, true, false] ++ List.replicate 8 false)
        = some (0, some HRType.fullTagged, 11)
      ∧ ([false, true, false] ++ List.replicate 8 false).take 3 ≠ [false, true, true] := by
  decide

/-- Claim C5 (amended): when the heart-rate channel is frozen, decoding a
heart-rate field consumes exactly 1 bit and yields a `+0` delta for every
bit pattern whose first two bits are not `01`, and exactly the
`01`-prefixed patterns (the code checks only two bits of the documented
`011` marker) are decoded as full values, consuming 11 bits and resetting
the zero-delta counter (unfreezing the channel). -/
theorem c5_frozen_hr (bits : Bits) (cursor hrC : Nat) (samples : List Sample)
    (smp : Sample) (p : Int)
    (hfroz : is_frozen hrC = true)
    (hlast : samples.getLast? = some smp) (hhr : smp.hr = some p)
    (hlen : cursor + 2 ≤ bits.length) :
    ((bits.drop cursor).take 2 ≠ [false, true] →
        parse_hr bits cursor hrC samples = some (p, cursor + 1, hrC + 1))
      ∧ ((bits.drop cursor).take 2 = [false, true] →
        ∃ v, parse_hr bits cursor hrC samples = some (v, cursor + 11, 0)) := by
  have hl : 2 ≤ (bits.drop cursor).length := by
    rw [List.length_drop]
    omega
  obtain ⟨b0, b1, rest, heq⟩ : ∃ b0 b1 rest, bits.drop cursor = b0 :: b1 :: rest := by
    match h : bits.drop cursor with
    | [] => rw [h] at hl; simp at hl
    | [b] => rw [h] at hl; simp at hl
    | b0 :: b1 :: rest => exact ⟨b0, b1, rest, rfl⟩
  constructor
  · intro hne
    rw [heq] at hne
    cases b0 <;> cases b1
    · simp [parse_hr, heq, process_hr_bits, classify_hr, hfroz, hlast, hhr,
        handle_delta]
    · exact absurd (by simp) hne
    · simp [parse_hr, heq, process_hr_bits, classify_hr, hfroz, hlast, hhr,
        handle_delta]
    · simp [parse_hr, heq, process_hr_bits, classify_hr, hfroz, hlast, hhr,
        handle_delta]
  · intro hpre
    rw [heq] at hpre
    simp at hpre
    obtain ⟨rfl, rfl⟩ := hpre
    have hinput : (bits.drop cursor).take 11 = false :: true :: rest.take 9 := by
      rw [heq]
      exact rfl
    simp only [parse_hr, hinput, hfroz]
    exact ⟨_, rfl⟩

/-- Claim C5, witness: frozen channel, pattern starting `11` yields the
previous HR with a 1-bit `+0` delta and an incremented counter. -/
theorem c5_witness :
    parse_hr [true, true] 0 2 [⟨some 50, none, none, none, none⟩] = some (50, 1, 3) := by
  have h := (c5_frozen_hr [true, true] 0 2 [⟨some 50, none, none, none, none⟩]
    ⟨some 50, none, none, none, none⟩ 50 (by decide) rfl rfl (by decide)).1 (by decide)
  exact h

/-- `TrainingSession._format_coord_frac` on an already-decoded integer:
`round(val * COORD_COEFF / 10**9, 9)`. -/
def format_coord_frac (v : Int) : ℚ := round9 ((v : ℚ) * COORD_COEFF / 10 ^ 9)

/-- `TrainingSession._format_coord(coord_int, coord_frac)`:
`int(coord_int, 2) + _format_coord_frac(coord_frac)`. -/
def format_coord (coordInt coordFrac : Bits) : ℚ :=
  (bitsToNat coordInt : ℚ) + format_coord_frac (bitsToNat coordFrac)

/-- `TrainingSession._format_coord_delta`: a raw 12-bit slot starting with
`1` is decoded as a 12-bit two's complement (via
`twos_complement_to_unsigned`, whose `bin`/`int` round trip preserves the
signed value), anything else as an unsigned integer; then scaled like a
fractional part. -/
def format_coord_delta (raw : Bits) : ℚ :=
  format_coord_frac
    (if raw.head? = some true then twos_complement_to_int raw 12 else (bitsToNat raw : Int))

/-- `TrainingSession._parse_coord` for one coordinate channel.  Arguments:
the sample bits, the cursor, the channel's zero-delta counter, and the
previous sample's value of this coordinate (`None` fails as in Python).
Returns `(emitted value, cursor', counter')`; `none` models the
`ValueError` of `int('', 2)` when the needed slices are empty. -/
def parse_coord (bits : Bits) (cursor counter : Nat) (prevOpt : Option ℚ) :
    Option (ℚ × Nat × Nat) :=
  let raw := (bits.drop cursor).take 12
  if raw.isEmpty then none
  else
    match prevOpt with
    | none => none
    | some prev =>
      let value := format_coord_delta raw
      if is_frozen counter then
        let intBits := (bits.drop cursor).take 8
        let fracBits := (bits.drop (cursor + 8)).take 20
        if fracBits.isEmpty then none
        else
          let fullValue := format_coord intBits fracBits
          if pyInt fullValue = pyInt prev then some (fullValue, cursor + 28, 0)
          else some (round9 (prev + 0), cursor, handle_delta counter (bitsToNat raw))
      else some (round9 (prev + value), cursor + 12, handle_delta counter (bitsToNat raw))

/-- Claim C4: when a coordinate channel is frozen, `_parse_coord` reads the
next 8 + 20 bits as the candidate `int_part + frac_part * COORD_COEFF /
1e9`, accepts it as a full value iff its integer part (Python `int()`)
equals the integer part of the previous coordinate -- consuming exactly 28
bits and resetting the zero-delta counter -- and otherwise consumes 0 bits
and re-emits the previous coordinate unchanged (the previous value is a
multiple of `1e-9`, so `round(prev + 0, 9)` returns it exactly). -/
theorem c4_frozen_coord (bits : Bits) (cursor counter : Nat) (prev : ℚ) (k : Int)
    (hfroz : is_frozen counter = true)
    (hlen : cursor + 28 ≤ bits.length)
    (hprev : prev = (k : ℚ) / 10 ^ 9) :
    (pyInt (format_coord ((bits.drop cursor).take 8) ((bits.drop (cursor + 8)).take 20))
          = pyInt prev →
        parse_coord bits cursor counter (some prev)
          = some (format_coord ((bits.drop cursor).take 8) ((bits.drop (cursor + 8)).take 20),
              cursor + 28, 0))
      ∧ (pyInt (format_coord ((bits.drop cursor).take 8) ((bits.drop (cursor + 8)).take 20))
          ≠ pyInt prev →
        ∃ counter', parse_coord bits cursor counter (some prev)
          = some (prev, cursor, counter')) := by
  have hraw : ¬((bits.drop cursor).take 12).isEmpty := by
    rw [List.isEmpty_iff, ← List.length_eq_zero]
    rw [List.length_take, List.length_drop]
    omega
  have hfrac : ¬((bits.drop (cursor + 8)).take 20).isEmpty := by
    rw [List.isEmpty_iff, ← List.length_eq_zero]
    rw [List.length_take, List.length_drop]
    omega
  constructor
  · intro hacc
    simp only [parse_coord, hraw, hfroz, hfrac, hacc]
    simp
  · intro hrej
    refine ⟨handle_delta counter (bitsToNat ((bits.drop cursor).take 12)), ?_⟩
    simp only [parse_coord, hraw, hfroz, hfrac]
    simp only [if_neg hrej]
    have hr9 : round9 prev = prev := by
      rw [hprev]
      exact round9_int_div k
    simp [hr9]

/-- Claim C4, witness: with the previous coordinate `39` and candidate bits
`00100111` `0…0` (integer part 39, fraction 0), the candidate is accepted:
28 bits are consumed and the counter resets. -/
theorem c4_witness :
    parse_coord ([false, false, true, false, false, true, true, true]
        ++ List.replicate 20 false) 0 2 (some 39) = some (39, 28, 0) := by
  have h := (c4_frozen_coord ([false, false, true, false, false, true, true, true]
      ++ List.replicate 20 false) 0 2 39 39000000000 (by decide) (by decide)
      (by norm_num)).1 (by decide)
  exact h.trans (by decide)

/-- `TrainingSession._parse_satellites`.  Arguments: sample bits, cursor,
the satellites zero-delta counter, and the `_prefixless_zero_sat` flag from
the previous tick.  Returns `(raw 4-bit slot, cursor', counter', flag')`;
`none` models `int('', 2)` when no bits remain.  The decision sequence --
the `001`-after-prefixless-zero case, the frozen-state `> 31` rejection,
the prefixless-zero detection, and the final delta/full counter update --
follows the source order exactly. -/
def parse_sat (bits : Bits) (cursor satC : Nat) (pzFlag : Bool) :
    Option (Bits × Nat × Nat × Bool) :=
  let sat := (bits.drop cursor).take 4
  let sl7 := (bits.drop cursor).take 7
  if sl7.isEmpty then none
  else
    let pv := bitsToNat sl7
    let offset1 := if pzFlag ∧ sat.take 3 = [false, false, true] then 7 else 4
    let offset2 := if is_frozen satC then (if 31 < pv then 0 else 7) else offset1
    let satC1 := if is_frozen satC ∧ sat.take 3 = [false, false, true] then 0 else satC
    let flag' := decide (pv = 0)
    let offset3 := if flag' then 7 else offset2
    let satC2 :=
      if offset3 = 4 then handle_delta satC1 (bitsToNat sat : Int)
      else if is_frozen satC1 then satC1 else 0
    some (sat, cursor + offset3, satC2, flag')

/-- Claim C7, counterexample: nine zero bits at the cursor with a zero-delta
counter of 1 (channel not frozen).  The decoder emits the zero slot,
advances 7 bits and records the prefixless-zero flag as claimed, but the
counter is RESET to 0 rather than left unchanged at 1. -/
theorem c7_counterexample :
    parse_sat (List.replicate 9 false) 0 1 false
        = some (List.replicate 4 false, 7, 0, true)
      ∧ (0 : Nat) ≠ 1 := by
  decide

/-- Claim C7 (amended): if the next 9 bits at the cursor are all zero, the
satellites decoder emits the all-zero slot (value 0), advances the cursor
by exactly 7 bits, and records the prefixless-zero flag for the next tick;
the zero-delta counter is left unchanged when the channel is frozen and is
reset to 0 otherwise (a change when its value was 1). -/
theorem c7_prefixless_zero (bits : Bits) (cursor satC : Nat) (pzFlag : Bool)
    (h9 : (bits.drop cursor).take 9 = List.replicate 9 false) :
    parse_sat bits cursor satC pzFlag
      = some (List.replicate 4 false, cursor + 7,
          (if is_frozen satC then satC else 0), true) := by
  have hlen : 9 ≤ (bits.drop cursor).length := by
    have := congrArg List.length h9
    rw [List.length_take, List.length_replicate] at this
    omega
  have h49 : List.take 4 ((bits.drop cursor).take 9) = List.take 4 (bits.drop cursor) := by
    rw [List.take_take]
    norm_num
  have h79 : List.take 7 ((bits.drop cursor).take 9) = List.take 7 (bits.drop cursor) := by
    rw [List.take_take]
    norm_num
  have hsat : (bits.drop cursor).take 4 = [false, false, false, false] := by
    rw [← h49, h9]
    decide
  have hsl7 : (bits.drop cursor).take 7
      = [false, false, false, false, false, false, false] := by
    rw [← h79, h9]
    decide
  cases hfz : is_frozen satC with
  | false =>
    simp [parse_sat, hsat, hsl7, hfz, bitsToNat, handle_delta, List.replicate]
  | true =>
    simp [parse_sat, hsat, hsl7, hfz, bitsToNat, handle_delta, List.replicate]

/-- Claim C7, witness: frozen channel (counter 2), nine zero bits: advance
7 bits, flag recorded, counter unchanged. -/
theorem c7_witness :
    parse_sat (List.replicate 9 false) 0 2 false
      = some (List.replicate 4 false, 7, 2, true) := by
  have h := c7_prefixless_zero (List.replicate 9 false) 0 2 false (by decide)
  exact h.trans (by decide)

/-- `TrainingSession._parse_speed`: read 7 bits as the delta (0 bits and
value 0 when frozen); if those 7 bits are exactly `1000000` the value is
full -- consume 16 bits, take the 9-bit value at `[7..16)`, and reset the
counter -- otherwise update the counter with the (possibly overridden)
delta.  Returns `(cursor', speed counter')`; the decoded speed itself is
discarded by the caller. -/
def parse_speed (bits : Bits) (cursor speedC : Nat) : Option (Nat × Nat) :=
  let sl := (bits.drop cursor).take 7
  if sl.isEmpty then none
  else
    let speedRaw := bitsToNat sl
    let offset := if is_frozen speedC then 0 else 7
    let speedVal : Int := if is_frozen speedC then 0 else (speedRaw : Int)
    if sl = [true, false, false, false, false, false, false] then
      if ((bits.drop (cursor + 7)).take 9).isEmpty then none
      else some (cursor + 16, 0)
    else some (cursor + offset, handle_delta speedC speedVal)

/-- `TrainingSession._parse_distance`: like speed but the full-value marker
is the 8-bit `10000000`, consuming 29 bits with the 21-bit value at
`[8..29)`. -/
def parse_distance (bits : Bits) (cursor distC : Nat) : Option (Nat × Nat) :=
  let sl := (bits.drop cursor).take 7
  if sl.isEmpty then none
  else
    let distRaw := bitsToNat sl
    let offset := if is_frozen distC then 0 else 7
    let distVal : Int := if is_frozen distC then 0 else (distRaw : Int)
    if (bits.drop cursor).take 8 = [true, false, false, false, false, false, false, false] then
      if ((bits.drop (cursor + 8)).take 21).isEmpty then none
      else some (cursor + 29, 0)
    else some (cursor + offset, handle_delta distC distVal)

/-- Characters of the bitstring, for `_has_lap_data`'s regex match. -/
def bitChar (b : Bool) : Char := if b then '1' else '0'

/-- `utils.get_bin(int(v), 8)` as the characters Python would produce: a
negative value renders as `'-'` followed by zero-fill (such a pattern can
never match inside a 0/1 window), a nonnegative one as its zero-filled
binary digits. -/
def get_bin_int (v : Int) (length : Nat) : List Char :=
  if v < 0 then
    let body := (natToBits v.natAbs).map bitChar
    '-' :: (List.replicate (length - (body.length + 1)) '0' ++ body)
  else
    List.replicate (length - ((natToBits v.toNat).map bitChar).length) '0'
      ++ (natToBits v.toNat).map bitChar

/-- `TrainingSession._has_lap_data`: the regex
`.{250,290}<lon bits>.{24}<lat bits>` anchored at the start of the next
416 bits matches iff some `k` between 250 and 290 places the previous
longitude's 8-bit integer part at `k` and the latitude's at `k + |lon| +
24`, entirely inside the window. -/
def hasLapData (window : List Char) (lonInt latInt : Int) : Bool :=
  let lonB := get_bin_int lonInt 8
  let latB := get_bin_int latInt 8
  (List.range 41).any (fun j =>
    let k := 250 + j
    decide (k + lonB.length + 24 + latB.length ≤ window.length)
      && decide ((window.drop k).take lonB.length = lonB)
      && decide ((window.drop (k + lonB.length + 24)).take latB.length = latB))

/-- `TrainingSession._parse_first_coords`: split the 56-bit (or shorter,
near the end of the stream) block into `lon_int:8, lon_frac, lat_int:8,
lat_frac` at the midpoint and format both coordinates; an empty slice
fails like Python's `int('', 2)`. -/
def parse_first_coords (data : Bits) : Option (ℚ × ℚ) :=
  let latEnd := data.length
  let lonEnd := latEnd / 2
  let lonInt := data.take 8
  let lonFrac := (data.drop 8).take (lonEnd - 8)
  let latInt := (data.drop lonEnd).take 8
  let latFrac := (data.drop (lonEnd + 8)).take (latEnd - (lonEnd + 8))
  if lonInt.isEmpty ∨ lonFrac.isEmpty ∨ latInt.isEmpty ∨ latFrac.isEmpty then none
  else some (format_coord lonInt lonFrac, format_coord latInt latFrac)

/-- The decoder's mutable state during `parse_samples`: the bit cursor,
the per-channel zero-delta counters, the `_prefixless_zero_sat` flag, the
accumulated samples, and the running totals `self.distance` and
`self.max_speed`. -/
structure PState where
  cursor : Nat
  hrC : Nat
  lonC : Nat
  latC : Nat
  distC : Nat
  speedC : Nat
  satC : Nat
  pzSat : Bool
  samples : List Sample
  distance : ℚ
  maxSpeed : ℚ
deriving DecidableEq

/-- The state set up by `TrainingSession.__init__`. -/
def initState : PState :=
  { cursor := 0, hrC := 0, lonC := 0, latC := 0, distC := 0, speedC := 0, satC := 0,
    pzSat := false, samples := [], distance := 0, maxSpeed := 0 }

/-- Per-session configuration: the `has_hr` / `has_gps` header flags, the
decoded `sample_rate` in seconds, and the great-circle distance function
(`geopy.distance.distance(...).meters`, an external pure function taking
`(lat, lon)` pairs). -/
structure DecCfg where
  hasHr : Bool
  hasGps : Bool
  sampleRate : ℚ
  dist : ℚ × ℚ → ℚ × ℚ → ℚ

/-- GPS tail of `TrainingSession._parse_first_sample`: skip 45 bits of
speed and distance, decode the first coordinates from the next 56 bits,
then skip 7 satellite bits and 23 unknown bits.  (The timezone lookup that
follows in the source only sets start-time metadata outside this model.)
The first sample carries `distance = 0.0` and `speed = 0.0`. -/
def parse_first_gps (bits : Bits) (hr : Option Int) (c : Nat) : Option PState :=
  let c1 := c + 45
  match parse_first_coords ((bits.drop c1).take 56) with
  | none => none
  | some (lon, lat) =>
    some { initState with
      cursor := c1 + 56 + 7 + 23
      samples := [⟨hr, some lon, some lat, some 0, some 0⟩] }

/-- `TrainingSession._parse_first_sample`: with GPS the cursor starts at
bit 22; HR, if present, is decoded from the tail of the stream with the
usual table.  Without GPS and without HR, Python hits a `NameError`
(`Sample(hr)` with `hr` unassigned), modelled as `none`. -/
def parse_first_sample (cfg : DecCfg) (bits : Bits) : Option PState :=
  let c0 := if cfg.hasGps then 22 else 0
  if cfg.hasHr then
    match process_hr_bits (is_frozen initState.hrC) (bits.drop c0) with
    | none => none
    | some (hr, _, offset) =>
      if cfg.hasGps then parse_first_gps bits (some hr) (c0 + offset)
      else
        some { initState with
          cursor := c0 + offset
          samples := [⟨some hr, none, none, none, none⟩] }
  else
    if cfg.hasGps then parse_first_gps bits none c0
    else none

/-- The satellites-and-lap-data block of the `parse_samples` loop: when
`_has_lap_data` fires, either the satellites come after the 416-bit lap
region (next 9 bits all zero) or before it; otherwise just satellites.
Returns `(cursor', satellites counter', prefixless-zero flag')`. -/
def sat_and_lap (bits : Bits) (c5 satC : Nat) (pzSat : Bool) (plon plat : ℚ) :
    Option (Nat × Nat × Bool) :=
  let window := ((bits.drop c5).take 416).map bitChar
  if hasLapData window (pyInt plon) (pyInt plat) then
    if (bits.drop c5).take 9 = List.replicate 9 false then
      match parse_sat bits (c5 + 416) satC pzSat with
      | none => none
      | some (_, c6, satC', pz') => some (c6, satC', pz')
    else
      match parse_sat bits c5 satC pzSat with
      | none => none
      | some (_, c6, satC', pz') => some (c6 + 416, satC', pz')
  else
    match parse_sat bits c5 satC pzSat with
    | none => none
    | some (_, c6, satC', pz') => some (c6, satC', pz')

/-- The remainder of one `parse_samples` loop iteration after the HR field:
for a session without GPS just append `Sample(hr)`; for a GPS session parse
speed, distance, longitude, latitude, satellites/lap data, skip the 10
undefined bits, and derive the per-tick distance (`self.distance += d`)
and speed (`d / sample_rate`, tracked into `max_speed`) before appending
the sample.  `s1` carries the state after the HR field. -/
def loopTail (cfg : DecCfg) (bits : Bits) (hr : Option Int) (s1 : PState) : Option PState :=
  if cfg.hasGps = false then
    some { s1 with samples := s1.samples ++ [⟨hr, none, none, none, none⟩] }
  else
    match parse_speed bits s1.cursor s1.speedC with
    | none => none
    | some (c2, spC) =>
      match parse_distance bits c2 s1.distC with
      | none => none
      | some (c3, diC) =>
        match s1.samples.getLast? with
        | none => none
        | some prev =>
          match parse_coord bits c3 s1.lonC prev.lon with
          | none => none
          | some (lon, c4, lonC2) =>
            match parse_coord bits c4 s1.latC prev.lat with
            | none => none
            | some (lat, c5, latC2) =>
              match prev.lon, prev.lat with
              | some plon, some plat =>
                match sat_and_lap bits c5 s1.satC s1.pzSat plon plat with
                | none => none
                | some (c6, satC2, pz2) =>
                  let d := cfg.dist (plat, plon) (lat, lon)
                  let sp := d / cfg.sampleRate
                  some { s1 with
                    cursor := c6 + 10
                    speedC := spC
                    distC := diC
                    lonC := lonC2
                    latC := latC2
                    satC := satC2
                    pzSat := pz2
                    distance := s1.distance + d
                    maxSpeed := if s1.maxSpeed < sp then sp else s1.maxSpeed
                    samples := s1.samples ++ [⟨hr, some lon, some lat, some d, some sp⟩] }
              | _, _ => none

/-- One iteration of the `while` loop of `TrainingSession.parse_samples`:
the HR field (when `has_hr`), then the rest of the tick. -/
def loopBody (cfg : DecCfg) (bits : Bits) (s : PState) : Option PState :=
  if cfg.hasHr then
    match parse_hr bits s.cursor s.hrC s.samples with
    | none => none
    | some (v, c1, hrC1) => loopTail cfg bits (some v) { s with cursor := c1, hrC := hrC1 }
  else loopTail cfg bits none s

/-- The `while self._cursor < len(self._samples_bits) and
len(self._next_bits(7)) > 5` loop, with explicit fuel (each successful
iteration strictly advances the cursor, so `bits.length + 1` fuel always
suffices; running out of fuel is modelled as failure). -/
def parseLoop (cfg : DecCfg) (bits : Bits) : Nat → PState → Option PState
  | 0, _ => none
  | fuel + 1, s =>
    if s.cursor < bits.length ∧ 5 < ((bits.drop s.cursor).take 7).length then
      match loopBody cfg bits s with
      | none => none
      | some s' => parseLoop cfg bits fuel s'
    else some s

/-- `TrainingSession.parse_samples`: first sample, then the loop.  `none`
models the `ParserError` that any exception in the walk is converted
into. -/
def parse_samples (cfg : DecCfg) (bits : Bits) (fuel : Nat) : Option PState :=
  match parse_first_sample cfg bits with
  | none => none
  | some s => parseLoop cfg bits fuel s

theorem process_hr_bits_offset (f : Bool) (input : Bits) (v : Int) (vt : Option HRType)
    (off : Nat) (h : process_hr_bits f input = some (v, vt, off)) : 1 ≤ off ∧ off ≤ 11 := by
  unfold process_hr_bits at h
  split at h
  · simp at h
  · rename_i t ht
    split at h
    · simp at h
      omega
    · cases t <;> simp at h <;> omega

theorem parse_hr_cursor (bits : Bits) (cursor hrC : Nat) (samples : List Sample)
    (v : Int) (c' k' : Nat) (h : parse_hr bits cursor hrC samples = some (v, c', k')) :
    cursor + 1 ≤ c' := by
  rcases hp : process_hr_bits (is_frozen hrC) ((bits.drop cursor).take 11)
    with _ | ⟨hr, vt, off⟩
  · simp [parse_hr, hp] at h
  · have hoff := process_hr_bits_offset _ _ _ _ _ hp
    simp only [parse_hr, hp] at h
    split at h
    · simp at h
      omega
    · rcases hq : samples.getLast? with _ | smp <;> rw [hq] at h
      · simp at h
      · rcases hhr : smp.hr with _ | p
        · simp [hhr] at h
        · simp [hhr] at h
          omega

theorem parse_speed_cursor (bits : Bits) (cursor speedC c' k' : Nat)
    (h : parse_speed bits cursor speedC = some (c', k')) : cursor ≤ c' := by
  by_cases he : ((bits.drop cursor).take 7).isEmpty
  · simp [parse_speed, he] at h
  · by_cases hf : (bits.drop cursor).take 7 = [true, false, false, false, false, false, false]
    · by_cases he2 : ((bits.drop (cursor + 7)).take 9).isEmpty
      · simp [parse_speed, he, hf, he2] at h
      · simp [parse_speed, he, hf, he2] at h
        omega
    · by_cases hz : is_frozen speedC
      · simp [parse_speed, he, hf, hz] at h
        omega
      · simp [parse_speed, he, hf, hz] at h
        omega

theorem parse_distance_cursor (bits : Bits) (cursor distC c' k' : Nat)
    (h : parse_distance bits cursor distC = some (c', k')) : cursor ≤ c' := by
  by_cases he : ((bits.drop cursor).take 7).isEmpty
  · simp [parse_distance, he] at h
  · by_cases hf : (bits.drop cursor).take 8
        = [true, false, false, false, false, false, false, false]
    · by_cases he2 : ((bits.drop (cursor + 8)).take 21).isEmpty
      · simp [parse_distance, he, hf, he2] at h
      · simp [parse_distance, he, hf, he2] at h
        omega
    · by_cases hz : is_frozen distC
      · simp [parse_distance, he, hf, hz] at h
        omega
      · simp [parse_distance, he, hf, hz] at h
        omega

theorem parse_coord_cursor (bits : Bits) (cursor counter : Nat) (prevOpt : Option ℚ)
    (val : ℚ) (c' k' : Nat) (h : parse_coord bits cursor counter prevOpt = some (val, c', k')) :
    cursor ≤ c' := by
  cases prevOpt with
  | none => simp [parse_coord] at h
  | some prev =>
    by_cases he : ((bits.drop cursor).take 12).isEmpty
    · simp [parse_coord, he] at h
    · by_cases hz : is_frozen counter
      · by_cases he2 : ((bits.drop (cursor + 8)).take 20).isEmpty
        · simp [parse_coord, he, hz, he2] at h
        · by_cases hacc : pyInt (format_coord ((bits.drop cursor).take 8)
              ((bits.drop (cursor + 8)).take 20)) = pyInt prev
          · simp [parse_coord, he, hz, he2, hacc] at h
            omega
          · simp [parse_coord, he, hz, he2, hacc] at h
            omega
      · simp [parse_coord, he, hz] at h
        omega

theorem parse_sat_cursor (bits : Bits) (cursor satC : Nat) (pz : Bool) (sat : Bits)
    (c' k' : Nat) (pz' : Bool) (h : parse_sat bits cursor satC pz = some (sat, c', k', pz')) :
    cursor ≤ c' := by
  by_cases he : ((bits.drop cursor).take 7).isEmpty
  · simp [parse_sat, he] at h
  · simp [parse_sat, he] at h
    omega

theorem sat_and_lap_cursor (bits : Bits) (c5 satC : Nat) (pzSat : Bool) (plon plat : ℚ)
    (c6 k : Nat) (pz : Bool) (h : sat_and_lap bits c5 satC pzSat plon plat = some (c6, k, pz)) :
    c5 ≤ c6 := by
  by_cases hl : hasLapData (((bits.drop c5).take 416).map bitChar) (pyInt plon) (pyInt plat)
  · by_cases h9 : (bits.drop c5).take 9 = List.replicate 9 false
    · rcases hq : parse_sat bits (c5 + 416) satC pzSat with _ | ⟨sat, c, k2, p2⟩
      · simp only [sat_and_lap, hl, h9, hq, eq_self_iff_true, if_true, Bool.false_eq_true,
          if_false, ite_true, ite_false] at h
        exact Option.noConfusion h
      · have hc := parse_sat_cursor _ _ _ _ _ _ _ _ hq
        simp only [sat_and_lap, hl, h9, hq, eq_self_iff_true, if_true, Bool.false_eq_true,
          if_false, ite_true, ite_false, Option.some.injEq, Prod.mk.injEq] at h
        omega
    · rcases hq : parse_sat bits c5 satC pzSat with _ | ⟨sat, c, k2, p2⟩
      · simp only [sat_and_lap, hl, h9, hq, eq_self_iff_true, if_true, Bool.false_eq_true,
          if_false, ite_true, ite_false] at h
        exact Option.noConfusion h
      · have hc := parse_sat_cursor _ _ _ _ _ _ _ _ hq
        simp only [sat_and_lap, hl, h9, hq, eq_self_iff_true, if_true, Bool.false_eq_true,
          if_false, ite_true, ite_false, Option.some.injEq, Prod.mk.injEq] at h
        omega
  · rcases hq : parse_sat bits c5 satC pzSat with _ | ⟨sat, c, k2, p2⟩
    · simp only [sat_and_lap, hl, hq, eq_self_iff_true, if_true, Bool.false_eq_true,
        if_false, ite_true, ite_false] at h
      exact Option.noConfusion h
    · have hc := parse_sat_cursor _ _ _ _ _ _ _ _ hq
      simp only [sat_and_lap, hl, hq, eq_self_iff_true, if_true, Bool.false_eq_true,
        if_false, ite_true, ite_false, Option.some.injEq, Prod.mk.injEq] at h
      omega

theorem loopTail_cursor (cfg : DecCfg) (bits : Bits) (hr : Option Int) (s1 s' : PState)
    (h : loopTail cfg bits hr s1 = some s') :
    s1.cursor ≤ s'.cursor ∧ (cfg.hasGps = true → s1.cursor < s'.cursor) := by
  by_cases hgps : cfg.hasGps = false
  · simp only [loopTail, hgps, eq_self_iff_true, if_true, ite_true,
      Option.some.injEq] at h
    subst h
    refine ⟨le_rfl, ?_⟩
    intro ht
    rw [ht] at hgps
    simp at hgps
  · rcases h1 : parse_speed bits s1.cursor s1.speedC with _ | ⟨c2, spC⟩
    · simp only [loopTail, hgps, h1, Bool.true_eq_false, if_false, ite_false] at h
      exact Option.noConfusion h
    rcases h2 : parse_distance bits c2 s1.distC with _ | ⟨c3, diC⟩
    · simp only [loopTail, hgps, h1, h2, Bool.true_eq_false, if_false, ite_false] at h
      exact Option.noConfusion h
    rcases h3 : s1.samples.getLast? with _ | prev
    · simp only [loopTail, hgps, h1, h2, h3, Bool.true_eq_false, if_false, ite_false] at h
      exact Option.noConfusion h
    rcases h4 : parse_coord bits c3 s1.lonC prev.lon with _ | ⟨lon, c4, lonC2⟩
    · simp only [loopTail, hgps, h1, h2, h3, h4, Bool.true_eq_false, if_false,
        ite_false] at h
      exact Option.noConfusion h
    rcases h5 : parse_coord bits c4 s1.latC prev.lat with _ | ⟨lat, c5, latC2⟩
    · simp only [loopTail, hgps, h1, h2, h3, h4, h5, Bool.true_eq_false, if_false,
        ite_false] at h
      exact Option.noConfusion h
    rcases hplon : prev.lon with _ | plon
    · rw [hplon] at h4
      simp [parse_coord] at h4
    rcases hplat : prev.lat with _ | plat
    · rw [hplat] at h5
      simp [parse_coord] at h5
    rw [hplon] at h4
    rw [hplat] at h5
    rcases h6 : sat_and_lap bits c5 s1.satC s1.pzSat plon plat with _ | ⟨c6, satC2, pz2⟩
    · simp only [loopTail, hgps, h1, h2, h3, hplon, hplat, h4, h5, h6, Bool.true_eq_false,
        if_false, ite_false] at h
      exact Option.noConfusion h
    have l1 : s1.cursor ≤ c2 := parse_speed_cursor _ _ _ _ _ h1
    have l2 : c2 ≤ c3 := parse_distance_cursor _ _ _ _ _ h2
    have l3 : c3 ≤ c4 := parse_coord_cursor _ _ _ _ _ _ _ h4
    have l4 : c4 ≤ c5 := parse_coord_cursor _ _ _ _ _ _ _ h5
    have l5 : c5 ≤ c6 := sat_and_lap_cursor _ _ _ _ _ _ _ _ _ h6
    simp only [loopTail, hgps, h1, h2, h3, hplon, hplat, h4, h5, h6, Bool.true_eq_false,
      if_false, ite_false, Option.some.injEq] at h
    subst h
    constructor
    · show s1.cursor ≤ c6 + 10
      omega
    · intro _
      show s1.cursor < c6 + 10
      omega

theorem loopBody_cursor_lt (cfg : DecCfg) (bits : Bits) (s s' : PState)
    (hcfg : cfg.hasHr = true ∨ cfg.hasGps = true)
    (h : loopBody cfg bits s = some s') : s.cursor < s'.cursor := by
  by_cases hhr : cfg.hasHr = true
  · rcases hp : parse_hr bits s.cursor s.hrC s.samples with _ | ⟨v, c1, hrC1⟩
    · simp only [loopBody, hhr, hp, eq_self_iff_true, if_true, ite_true] at h
      exact Option.noConfusion h
    · simp only [loopBody, hhr, hp, eq_self_iff_true, if_true, ite_true] at h
      have h1 := parse_hr_cursor _ _ _ _ _ _ _ hp
      have h2 : c1 ≤ s'.cursor := (loopTail_cursor _ _ _ _ _ h).1
      omega
  · have hgps : cfg.hasGps = true := by
      rcases hcfg with h' | h'
      · exact absurd h' hhr
      · exact h'
    simp only [loopBody, hhr, Bool.false_eq_true, if_false, ite_false] at h
    exact (loopTail_cursor _ _ _ _ _ h).2 hgps

theorem parseLoop_cursor (cfg : DecCfg) (bits : Bits)
    (hcfg : cfg.hasHr = true ∨ cfg.hasGps = true) :
    ∀ fuel s s', parseLoop cfg bits fuel s = some s' → s.cursor ≤ s'.cursor := by
  intro fuel
  induction fuel with
  | zero =>
    intro s s' h
    simp [parseLoop] at h
  | succ f ih =>
    intro s s' h
    rw [parseLoop] at h
    split at h
    · rcases hb : loopBody cfg bits s with _ | s1 <;> rw [hb] at h
      · simp at h
      · have hlt := loopBody_cursor_lt cfg bits s s1 hcfg hb
        have hle := ih s1 s' h
        omega
    · simp at h
      rw [← h]

/-- Claim C8: the bit cursor never retreats -- every parsing step of the
telemetry walk returns a cursor at least as large as it received (each
update adds a nonnegative offset) -- and one complete loop iteration
(decoding one sample, for any session shape that reaches the loop, i.e.
with HR or GPS present) advances the cursor by at least 1 bit; hence the
cursor is monotonically non-decreasing across the whole loop. -/
theorem c8_cursor_monotonicity :
    (∀ (bits : Bits) (cursor hrC : Nat) (samples : List Sample) (v : Int) (c' k' : Nat),
        parse_hr bits cursor hrC samples = some (v, c', k') → cursor ≤ c')
      ∧ (∀ (bits : Bits) (cursor speedC c' k' : Nat),
          parse_speed bits cursor speedC = some (c', k') → cursor ≤ c')
      ∧ (∀ (bits : Bits) (cursor distC c' k' : Nat),
          parse_distance bits cursor distC = some (c', k') → cursor ≤ c')
      ∧ (∀ (bits : Bits) (cursor counter : Nat) (prevOpt : Option ℚ) (val : ℚ) (c' k' : Nat),
          parse_coord bits cursor counter prevOpt = some (val, c', k') → cursor ≤ c')
      ∧ (∀ (bits : Bits) (cursor satC : Nat) (pz : Bool) (sat : Bits) (c' k' : Nat) (pz' : Bool),
          parse_sat bits cursor satC pz = some (sat, c', k', pz') → cursor ≤ c')
      ∧ (∀ (cfg : DecCfg) (bits : Bits) (s s' : PState),
          cfg.hasHr = true ∨ cfg.hasGps = true →
          loopBody cfg bits s = some s' → s.cursor < s'.cursor)
      ∧ (∀ (cfg : DecCfg) (bits : Bits) (fuel : Nat) (s s' : PState),
          cfg.hasHr = true ∨ cfg.hasGps = true →
          parseLoop cfg bits fuel s = some s' → s.cursor ≤ s'.cursor) := by
  refine ⟨?_, ?_, ?_, ?_, ?_, ?_, ?_⟩
  · intro bits cursor hrC samples v c' k' h
    have := parse_hr_cursor bits cursor hrC samples v c' k' h
    omega
  · exact parse_speed_cursor
  · exact parse_distance_cursor
  · exact parse_coord_cursor
  · exact parse_sat_cursor
  · exact fun cfg bits s s' hcfg h => loopBody_cursor_lt cfg bits s s' hcfg h
  · exact fun cfg bits fuel s s' hcfg h => parseLoop_cursor cfg bits hcfg fuel s s' h

/-- Configuration of the C8 witness run: HR-only session (`has_hr`, no
GPS), 1-second sample rate, irrelevant distance oracle. -/
def c8Cfg : DecCfg := ⟨true, false, 1, fun _ _ => 0⟩

/-- Bits of the C8 witness run: the positive HR delta `10 0010` (+2). -/
def c8Bits : Bits := [true, false, false, false, true, false]

/-- Start state of the C8 witness run: one decoded sample with HR 100. -/
def c8Start : PState := { initState with samples := [⟨some 100, none, none, none, none⟩] }

/-- End state of the C8 witness run: cursor advanced 6 bits, HR 102. -/
def c8End : PState :=
  { c8Start with
    cursor := 6
    samples := c8Start.samples ++ [⟨some 102, none, none, none, none⟩] }

/-- Claim C8, witness: a concrete loop iteration strictly advances the
cursor. -/
theorem c8_witness :
    loopBody c8Cfg c8Bits c8Start = some c8End ∧ c8Start.cursor < c8End.cursor :=
  ⟨by decide,
    c8_cursor_monotonicity.2.2.2.2.2.1 c8Cfg c8Bits c8Start c8End (Or.inl rfl) (by decide)⟩

/-- Sum of the per-tick `distance` fields of a sample list (a missing
field counts 0; in a GPS decode every sample carries one). -/
def sampleDistSum (l : List Sample) : ℚ :=
  (l.map (fun smp => smp.distance.getD 0)).sum

/-- Running maximum of the `speed` fields of a sample list, starting from
the `max_speed = 0` of `__init__`.  Because a GPS decode's first sample
carries `speed = 0`, this equals the plain maximum over all samples. -/
def sampleSpeedMax (l : List Sample) : ℚ :=
  l.foldl (fun a smp => max a (smp.speed.getD 0)) 0

theorem sampleDistSum_append (l : List Sample) (x : Sample) :
    sampleDistSum (l ++ [x]) = sampleDistSum l + x.distance.getD 0 := by
  simp [sampleDistSum]

theorem sampleSpeedMax_append (l : List Sample) (x : Sample) :
    sampleSpeedMax (l ++ [x]) = max (sampleSpeedMax l) (x.speed.getD 0) := by
  simp [sampleSpeedMax]

/-- The C9 invariant: the running totals agree with the emitted samples,
and the first sample carries `distance = 0` and `speed = 0`. -/
def C9Inv (s : PState) : Prop :=
  s.distance = sampleDistSum s.samples
    ∧ s.maxSpeed = sampleSpeedMax s.samples
    ∧ ∃ first rest, s.samples = first :: rest
        ∧ first.distance = some 0 ∧ first.speed = some 0

theorem ifMax (a b : ℚ) : (if a < b then b else a) = max a b := by
  rcases lt_or_ge a b with hab | hab
  · rw [if_pos hab, max_eq_right (le_of_lt hab)]
  · rw [if_neg (not_lt.mpr hab), max_eq_left hab]

theorem loopTail_inv (cfg : DecCfg) (bits : Bits) (hr : Option Int) (s1 s' : PState)
    (hgps : cfg.hasGps = true) (h : loopTail cfg bits hr s1 = some s')
    (hinv : C9Inv s1) : C9Inv s' := by
  have hgps' : ¬cfg.hasGps = false := by
    rw [hgps]
    simp
  rcases h1 : parse_speed bits s1.cursor s1.speedC with _ | ⟨c2, spC⟩
  · simp only [loopTail, hgps', h1, Bool.true_eq_false, if_false, ite_false] at h
    exact Option.noConfusion h
  rcases h2 : parse_distance bits c2 s1.distC with _ | ⟨c3, diC⟩
  · simp only [loopTail, hgps', h1, h2, Bool.true_eq_false, if_false, ite_false] at h
    exact Option.noConfusion h
  rcases h3 : s1.samples.getLast? with _ | prev
  · simp only [loopTail, hgps', h1, h2, h3, Bool.true_eq_false, if_false, ite_false] at h
    exact Option.noConfusion h
  rcases h4 : parse_coord bits c3 s1.lonC prev.lon with _ | ⟨lon, c4, lonC2⟩
  · simp only [loopTail, hgps', h1, h2, h3, h4, Bool.true_eq_false, if_false,
      ite_false] at h
    exact Option.noConfusion h
  rcases h5 : parse_coord bits c4 s1.latC prev.lat with _ | ⟨lat, c5, latC2⟩
  · simp only [loopTail, hgps', h1, h2, h3, h4, h5, Bool.true_eq_false, if_false,
      ite_false] at h
    exact Option.noConfusion h
  rcases hplon : prev.lon with _ | plon
  · rw [hplon] at h4
    simp [parse_coord] at h4
  rcases hplat : prev.lat with _ | plat
  · rw [hplat] at h5
    simp [parse_coord] at h5
  rw [hplon] at h4
  rw [hplat] at h5
  rcases h6 : sat_and_lap bits c5 s1.satC s1.pzSat plon plat with _ | ⟨c6, satC2, pz2⟩
  · simp only [loopTail, hgps', h1, h2, h3, hplon, hplat, h4, h5, h6, Bool.true_eq_false,
      if_false, ite_false] at h
    exact Option.noConfusion h
  simp only [loopTail, hgps', h1, h2, h3, hplon, hplat, h4, h5, h6, Bool.true_eq_false,
    if_false, ite_false, Option.some.injEq] at h
  subst h
  obtain ⟨hd, hm, first, rest, hsmp, hfd, hfs⟩ := hinv
  refine ⟨?_, ?_, first,
    rest ++ [⟨hr, some lon, some lat, some (cfg.dist (plat, plon) (lat, lon)),
      some (cfg.dist (plat, plon) (lat, lon) / cfg.sampleRate)⟩], ?_, hfd, hfs⟩
  · show s1.distance + cfg.dist (plat, plon) (lat, lon)
      = sampleDistSum (s1.samples
          ++ [⟨hr, some lon, some lat, some (cfg.dist (plat, plon) (lat, lon)),
            some (cfg.dist (plat, plon) (lat, lon) / cfg.sampleRate)⟩])
    rw [sampleDistSum_append, hd]
    simp
  · show (if s1.maxSpeed < cfg.dist (plat, plon) (lat, lon) / cfg.sampleRate
        then cfg.dist (plat, plon) (lat, lon) / cfg.sampleRate else s1.maxSpeed)
      = sampleSpeedMax (s1.samples
          ++ [⟨hr, some lon, some lat, some (cfg.dist (plat, plon) (lat, lon)),
            some (cfg.dist (plat, plon) (lat, lon) / cfg.sampleRate)⟩])
    rw [sampleSpeedMax_append, hm, ifMax]
    simp
  · show s1.samples ++ [_] = first :: (rest ++ [_])
    rw [hsmp]
    rfl

theorem loopBody_inv (cfg : DecCfg) (bits : Bits) (s s' : PState)
    (hgps : cfg.hasGps = true) (h : loopBody cfg bits s = some s')
    (hinv : C9Inv s) : C9Inv s' := by
  by_cases hhr : cfg.hasHr = true
  · rcases hp : parse_hr bits s.cursor s.hrC s.samples with _ | ⟨v, c1, hrC1⟩
    · simp only [loopBody, hhr, hp, eq_self_iff_true, if_true, ite_true] at h
      exact Option.noConfusion h
    · simp only [loopBody, hhr, hp, eq_self_iff_true, if_true, ite_true] at h
      exact loopTail_inv cfg bits (some v) { s with cursor := c1, hrC := hrC1 } s' hgps h hinv
  · simp only [loopBody, hhr, Bool.false_eq_true, if_false, ite_false] at h
    exact loopTail_inv cfg bits none s s' hgps h hinv

theorem parseLoop_inv (cfg : DecCfg) (bits : Bits) (hgps : cfg.hasGps = true) :
    ∀ fuel s s', parseLoop cfg bits fuel s = some s' → C9Inv s → C9Inv s' := by
  intro fuel
  induction fuel with
  | zero =>
    intro s s' h hinv
    simp [parseLoop] at h
  | succ f ih =>
    intro s s' h hinv
    rw [parseLoop] at h
    split at h
    · rcases hb : loopBody cfg bits s with _ | s1 <;> rw [hb] at h
      · simp at h
      · exact ih s1 s' h (loopBody_inv cfg bits s s1 hgps hb hinv)
    · simp at h
      subst h
      exact hinv

theorem parse_first_gps_inv (bits : Bits) (hr : Option Int) (c : Nat) (s0 : PState)
    (h : parse_first_gps bits hr c = some s0) : C9Inv s0 := by
  rcases hc : parse_first_coords ((bits.drop (c + 45)).take 56) with _ | ⟨lon, lat⟩
  · simp only [parse_first_gps, hc] at h
    exact Option.noConfusion h
  · simp only [parse_first_gps, hc, Option.some.injEq] at h
    subst h
    refine ⟨?_, ?_, _, [], rfl, rfl, rfl⟩
    · show (0 : ℚ) = sampleDistSum [⟨hr, some lon, some lat, some 0, some 0⟩]
      simp [sampleDistSum]
    · show (0 : ℚ) = sampleSpeedMax [⟨hr, some lon, some lat, some 0, some 0⟩]
      simp [sampleSpeedMax]

theorem parse_first_sample_inv (cfg : DecCfg) (bits : Bits) (s0 : PState)
    (hgps : cfg.hasGps = true) (h : parse_first_sample cfg bits = some s0) : C9Inv s0 := by
  by_cases hhr : cfg.hasHr = true
  · simp only [parse_first_sample, hhr, hgps, eq_self_iff_true, if_true, ite_true] at h
    rcases hp : process_hr_bits (is_frozen initState.hrC) (bits.drop 22)
      with _ | ⟨v, vt, off⟩ <;> rw [hp] at h
    · exact Option.noConfusion h
    · exact parse_first_gps_inv bits (some v) (22 + off) s0 h
  · simp only [parse_first_sample, hhr, hgps, eq_self_iff_true, if_true, ite_true,
      Bool.false_eq_true, if_false, ite_false] at h
    exact parse_first_gps_inv bits none 22 s0 h

/-- Claim C9: for every GPS session that `parse_samples` decodes without
error, the session's `max_speed` equals the running maximum of the `speed`
fields over all emitted samples (which, since the first sample's speed is
0, is their maximum) and the session's total `distance` equals the sum of
the per-tick `distance` fields over all emitted samples, with the first
sample contributing `distance = 0` and `speed = 0`. -/
theorem c9_totals (cfg : DecCfg) (bits : Bits) (fuel : Nat) (s : PState)
    (hgps : cfg.hasGps = true) (h : parse_samples cfg bits fuel = some s) :
    s.distance = sampleDistSum s.samples
      ∧ s.maxSpeed = sampleSpeedMax s.samples
      ∧ ∃ first rest, s.samples = first :: rest
          ∧ first.distance = some 0 ∧ first.speed = some 0 := by
  unfold parse_samples at h
  rcases hf : parse_first_sample cfg bits with _ | s0 <;> rw [hf] at h
  · exact Option.noConfusion h
  · exact parseLoop_inv cfg bits hgps fuel s0 s h (parse_first_sample_inv cfg bits s0 hgps hf)

/-- Configuration of the C9 witness run: GPS without HR, 1-second rate,
zero distance oracle. -/
def c9Cfg : DecCfg := ⟨false, true, 1, fun _ _ => 0⟩

/-- Bits of the C9 witness run: 85 zero bits, enough for the first sample
and nothing more. -/
def c9Bits : Bits := List.replicate 85 false

/-- Resulting state of the C9 witness run. -/
def c9Res : PState :=
  { initState with
    cursor := 153
    samples := [⟨none, some 0, some 0, some 0, some 0⟩] }

/-- Claim C9, witness: a concrete GPS decode whose totals match its
samples. -/
theorem c9_witness :
    parse_samples c9Cfg c9Bits 1 = some c9Res
      ∧ c9Res.distance = sampleDistSum c9Res.samples
      ∧ c9Res.maxSpeed = sampleSpeedMax c9Res.samples :=
  ⟨by decide, (c9_totals c9Cfg c9Bits 1 c9Res rfl (by decide)).1,
    (c9_totals c9Cfg c9Bits 1 c9Res rfl (by decide)).2.1⟩

end Polar
